import Mathlib

/-!
Verification development for the loki repository.

Part 1: the interprocedural stack-pool-allocation transformation
(`TemporariesPoolAllocatorTransformation`).  The pass itself is not part of
the source tree; only its test suite
(`src/loki/transformations/tests/test_pool_allocator.py`) is.  The model
below is therefore built from the specification, with every behavioural
choice that the test suite pins down (published stack-size expressions,
call-site rewriting style, handling of derived-type locals, guard counts
and placement, driver sizing) taken from the assertions of that test file.

Part 2: the build-system object cache (`src/loki/build/obj.py`), embedded
directly from the source.
-/

namespace Loki

/-- Association-list lookup keyed by strings, used to model, in turn, the
scheduler side-table, Python dict lookups and pragma parameter maps. -/
def alookup {α : Type} : List (String × α) → String → Option α
  | [], _ => none
  | (k, v) :: rest, key => if k = key then some v else alookup rest key

/-- Modelled from the spec: the element type and kind of a declared
variable in the typed AST consumed from the frontend collaborator
(primitive real/integer/logical kinds, or a derived/aggregate type). -/
inductive DType
  | real (kind : String)
  | intty (kind : String)
  | logical (kind : String)
  | derived (tyname : String)
  deriving DecidableEq, Repr

def DType.isDerived : DType → Bool
  | .derived _ => true
  | _ => false

/-- Modelled from the spec: a symbol occurrence, carrying its name and the
scope it is bound to (`none` means scope-free, as `FindVariables` /
`v.scope is None` observe it in the tests). -/
structure SymVar where
  name : String
  scope : Option String
  deriving DecidableEq, Repr

/-- Modelled from the spec: a symbolic, unevaluated arithmetic size
expression over names, literals and element-size primitives
(`c_sizeof(<type>(1, kind=...))` queries). -/
inductive SizeExpr
  | var (v : SymVar)
  | lit (n : Int)
  | add (a b : SizeExpr)
  | mul (a b : SizeExpr)
  | emax (a b : SizeExpr)
  | ediv (a b : SizeExpr)
  | sizeofTy (t : DType)
  deriving DecidableEq, Repr

/-- Free variables of a size expression, in occurrence order. -/
def SizeExpr.freeVars : SizeExpr → List SymVar
  | .var v => [v]
  | .lit _ => []
  | .add a b => a.freeVars ++ b.freeVars
  | .mul a b => a.freeVars ++ b.freeVars
  | .emax a b => a.freeVars ++ b.freeVars
  | .ediv a b => a.freeVars ++ b.freeVars
  | .sizeofTy _ => []

/-- Whether the expression mentions a variable of the given name. -/
def SizeExpr.mentions (e : SizeExpr) (n : String) : Bool :=
  e.freeVars.any fun v => v.name = n

/-- Modelled from the spec: rebuilding an expression in a different
routine's context, substituting actual-argument names for formal dimension
names; every resulting symbol is created scope-free. -/
def SizeExpr.rebind (σ : String → Option String) : SizeExpr → SizeExpr
  | .var v => .var ⟨(σ v.name).getD v.name, none⟩
  | .lit n => .lit n
  | .add a b => .add (a.rebind σ) (b.rebind σ)
  | .mul a b => .mul (a.rebind σ) (b.rebind σ)
  | .emax a b => .emax (a.rebind σ) (b.rebind σ)
  | .ediv a b => .ediv (a.rebind σ) (b.rebind σ)
  | .sizeofTy t => .sizeofTy t

/-- Cloning an expression with every symbol made scope-free, as the Size
Modeler must do before publishing an expression. -/
def SizeExpr.stripScope (e : SizeExpr) : SizeExpr :=
  e.rebind fun _ => none

/-- Sum of a list of size expressions (left-associated, preserving
order); the empty sum is the literal zero. -/
def sumExprs : List SizeExpr → SizeExpr
  | [] => .lit 0
  | e :: es => es.foldl .add e

/-- Maximum of a nonempty list of size expressions (left-associated). -/
def maxExprs : List SizeExpr → Option SizeExpr
  | [] => none
  | e :: es => some (es.foldl .emax e)

/-- Modelled from the spec: one local variable declaration of a routine,
with its symbolic extent expressions (one per dimension, empty for a
scalar) and the attribute exclusions the Size Modeler checks. -/
structure LocalDecl where
  name : String
  ty : DType
  dims : List SizeExpr
  allocatable : Bool
  pointerAttr : Bool
  deriving DecidableEq, Repr

/-- Modelled from the spec: a call site, with its original positional and
keyword actual arguments (actuals kept as their source text). -/
structure Call where
  callee : String
  args : List String
  kwargs : List (String × String)
  deriving DecidableEq, Repr

/-- Modelled from the spec: the body statements the pass needs to see -
scalar assignments (used for the injected cursor updates and Cray-pointer
address assignments), the generated overflow guard
(`if (ylstack_l > ylstack_u) stop`, terminating with a diagnostic naming
routine and temporary), call statements, and abstract computational
statements referencing a set of variables. -/
inductive Stmt
  | assign (lhs : String) (rhs : SizeExpr)
  | guard (rname tmp : String)
  | call (c : Call)
  | compute (uses : List String)
  deriving DecidableEq, Repr

def Stmt.isGuard : Stmt → Bool
  | .guard _ _ => true
  | _ => false

/-- Whether a body statement references the named variable. -/
def Stmt.usesVar (n : String) : Stmt → Bool
  | .assign lhs rhs => lhs = n || rhs.mentions n
  | .guard _ _ => n = "ylstack_l" || n = "ylstack_u"
  | .call c => c.args.any (· = n) || c.kwargs.any (fun kv => kv.2 = n)
  | .compute vs => vs.contains n

/-- Modelled from the spec: a routine of the typed AST - name, formal
parameter names in order, local declarations in source order, body. -/
structure Routine where
  name : String
  params : List String
  locals : List LocalDecl
  body : List Stmt
  deriving DecidableEq, Repr

/-- Modelled from the spec: a configuration dimension (block or
horizontal), with its size symbol and alias names. -/
structure Dimension where
  size : String
  index : String
  aliases : List String
  deriving DecidableEq, Repr

/-- Modelled from the spec: the configuration surface of one
transformation instance - bounds-checking on/off, addressing mode
(byte pointer-arithmetic vs element-counted `cray_ptr_loc_rhs` slice
addressing), the optional horizontal dimension, and the driver's
reference real kind. -/
structure Config where
  checkBounds : Bool
  crayPtrLocRhs : Bool
  horizontal : Option Dimension
  realKind : String
  deriving DecidableEq, Repr

/-- Modelled from the spec: the per-routine record published in the
scheduler side-table - the callee's formal parameter names (used by
callers to substitute actuals into the size expression) and the published
total size requirement (the `stack_size` entry of the tests). -/
structure Frame where
  params : List String
  stackSize : SizeExpr
  deriving DecidableEq, Repr

/-- The shared caller/callee side-table, keyed by routine name. -/
abbrev SideTable := List (String × Frame)

/-- Modelled from the spec: whether any extent of a temporary refers to
the configured horizontal size or one of its aliases; such temporaries
use the plain size-of query while all others have their element size
clamped to a floor of 8 bytes (the `max(c_sizeof(...), 8)` wrapper seen
throughout the tests). -/
def dimsUseHorizontal (h : Option Dimension) (dims : List SizeExpr) : Bool :=
  match h with
  | none => false
  | some hd => dims.any fun e => e.freeVars.any fun v =>
      v.name = hd.size || hd.aliases.contains v.name

/-- Modelled from the spec: `element_size(type, kind)` - a size-of query,
clamped to a floor of 8 via `max(query, 8)` in minimum-alignment mode. -/
def elemSize (t : DType) (clamp : Bool) : SizeExpr :=
  if clamp then .emax (.sizeofTy t) (.lit 8) else .sizeofTy t

/-- Modelled from the spec: the Size Modeler's byte requirement of one
eligible temporary: `element_size(type, kind) × Π(extent_i)`, extents in
declaration order, every symbol published scope-free. -/
def tempSize (cfg : Config) (d : LocalDecl) : SizeExpr :=
  (d.dims.map SizeExpr.stripScope).foldl .mul
    (elemSize d.ty (!dimsUseHorizontal cfg.horizontal d.dims))

/-- Modelled from the spec: pool eligibility of a local declaration - an
array that is not allocatable, not a pointer and not of derived type. -/
def eligibleDecl (d : LocalDecl) : Bool :=
  !d.dims.isEmpty && !d.allocatable && !d.pointerAttr && !d.ty.isDerived

/-- Whether the routine declares any local variable of derived type. -/
def Routine.hasDerived (r : Routine) : Bool :=
  r.locals.any fun d => d.ty.isDerived

/-- Modelled from the spec: the temporaries selected for relocation, in
source declaration order; none are selected when derived-type locals are
present anywhere in the routine (the Size Modeler aborts relocation). -/
def eligibleTemps (r : Routine) : List LocalDecl :=
  if r.hasDerived then [] else r.locals.filter eligibleDecl

/-- The calls made by a list of body statements, in order. -/
def callsOf (body : List Stmt) : List Call :=
  body.filterMap fun s =>
    match s with
    | .call c => some c
    | _ => none

/-- Modelled from the spec: the caller-side argument map of one call -
formal parameter names of the callee mapped to the actual texts, matching
positionally first and by keyword otherwise. -/
def Call.argMap (c : Call) (params : List String) (p : String) : Option String :=
  match alookup (params.zip c.args) p with
  | some a => some a
  | none => alookup c.kwargs p

/-- Modelled from the spec: a callee frame's published size as seen from
one call site: actual arguments substituted for formal dimension names,
re-emitted scope-free in the caller's context. -/
def substSize (c : Call) (f : Frame) : SizeExpr :=
  f.stackSize.rebind (c.argMap f.params)

/-- The substituted requirement of one call, when its callee has a
published frame. -/
def calleeContrib (T : SideTable) (c : Call) : Option SizeExpr :=
  (alookup T c.callee).map (substSize c)

/-- The substituted requirements of all calls with a published frame. -/
def calleeContribs (T : SideTable) (body : List Stmt) : List SizeExpr :=
  (callsOf body).filterMap (calleeContrib T)

/-- Modelled from the spec: the published `stack_size` of a routine: its
own accumulated requirement plus, when the routine calls transformed
callees, the maximum of their substituted published requirements (the
nested-kernel test pins the callee contribution; sibling callees are
combined by `max` as time-disjoint). -/
def stackSizeOf (cfg : Config) (T : SideTable) (r : Routine) : SizeExpr :=
  let own := sumExprs ((eligibleTemps r).map (tempSize cfg))
  match maxExprs (calleeContribs T r.body) with
  | none => own
  | some m => .add own m

/-- Modelled from the spec: the formal stack parameters the Frame Builder
appends - base, bound (only with bounds-checking), and the backing buffer
in element-counted addressing mode. -/
def stackParams (cfg : Config) : List String :=
  "ydstack_l" ::
    ((if cfg.checkBounds then ["ydstack_u"] else []) ++
      (if cfg.crayPtrLocRhs then ["zstack"] else []))

/-- Modelled from the spec and pinned by the tests: the actual arguments
appended to every rewritten call, always passed by keyword using the
callee's declared parameter names. -/
def stackKwargs (cfg : Config) : List (String × String) :=
  ("YDSTACK_L", "ylstack_l") ::
    ((if cfg.checkBounds then [("YDSTACK_U", "ylstack_u")] else []) ++
      (if cfg.crayPtrLocRhs then [("ZSTACK", "zstack")] else []))

/-- Modelled from the spec: the Call-Site Threader's rewrite of one call:
calls to routines with a published frame gain the stack arguments, all
other calls are left unmodified. -/
def threadCall (cfg : Config) (T : SideTable) (c : Call) : Call :=
  if (alookup T c.callee).isSome then
    { c with kwargs := c.kwargs ++ stackKwargs cfg }
  else c

/-- The Call-Site Threader applied to one body statement. -/
def threadStmt (cfg : Config) (T : SideTable) : Stmt → Stmt
  | .call c => .call (threadCall cfg T c)
  | s => s

/-- Modelled from the spec: the Frame Builder's routine-entry copy of the
incoming formal stack parameters into the local working cursor. -/
def entryCopy (cfg : Config) : List Stmt :=
  Stmt.assign "ylstack_l" (SizeExpr.var ⟨"ydstack_l", none⟩) ::
    (if cfg.checkBounds then
      [Stmt.assign "ylstack_u" (SizeExpr.var ⟨"ydstack_u", none⟩)]
    else [])

/-- Modelled from the spec: the Frame Builder's allocation sequence for
one temporary - the address (Cray pointer) assignment to the current
running base, the advance of the running base by the temporary's size,
and, with bounds-checking enabled, the overflow guard. -/
def allocBlock (cfg : Config) (rname : String) (t : LocalDecl) : List Stmt :=
  Stmt.assign ("ip_" ++ t.name) (SizeExpr.var ⟨"ylstack_l", none⟩) ::
    Stmt.assign "ylstack_l"
      (SizeExpr.add (SizeExpr.var ⟨"ylstack_l", none⟩) (tempSize cfg t)) ::
    (if cfg.checkBounds then [Stmt.guard rname t.name] else [])

/-- The allocation sequences of all temporaries, in declaration order. -/
def allocAll (cfg : Config) (rname : String) : List LocalDecl → List Stmt
  | [] => []
  | t :: ts => allocBlock cfg rname t ++ allocAll cfg rname ts

/-- Whether the routine already carries the appended stack parameters
(the pass detects this and skips re-instrumentation). -/
def alreadyTransformed (r : Routine) : Bool :=
  r.params.contains "ydstack_l"

/-- The result of processing one routine: the rewritten routine, the
updated side-table, and the warnings recorded. -/
structure TransformResult where
  routine : Routine
  table : SideTable
  warnings : List String
  deriving Repr

/-- Modelled from the spec and pinned by the tests: processing of one
kernel routine.  An already-transformed routine is left untouched.
Otherwise: derived-type locals record a warning and suppress the
relocation of temporaries (but, as the test
`test_pool_allocator_more_call_checks` pins, the stack parameters are
still appended and call sites still rewritten); the body is rebuilt as
entry copies, the allocation sequences of the eligible temporaries in
declaration order, and the threaded original body; the routine's frame is
published in the side-table. -/
def transformRoutine (cfg : Config) (T : SideTable) (r : Routine) :
    TransformResult :=
  if alreadyTransformed r then ⟨r, T, []⟩
  else
    let warns :=
      if r.hasDerived then
        ["Derived-type vars in Subroutine:: " ++ r.name ++
          " not supported in pool allocator"]
      else []
    let body :=
      entryCopy cfg ++ allocAll cfg r.name (eligibleTemps r) ++
        r.body.map (threadStmt cfg T)
    ⟨{ r with params := r.params ++ stackParams cfg, body := body },
      (r.name, ⟨r.params, stackSizeOf cfg T r⟩) :: T,
      warns⟩

/-- Modelled from the spec: the Root Provisioner's aggregate requirement
at the driver: the maximum over the direct calls made at the root's own
scope of each called routine's substituted published requirement. -/
def driverAggregate (T : SideTable) (d : Routine) : Option SizeExpr :=
  maxExprs (calleeContribs T d.body)

/-- Modelled from the spec: the driver's provisioned buffer size
(`istsz`): the aggregate, converted to an element count of the reference
real kind in byte-accounting mode, taken as a raw element count in the
element-counted addressing mode. -/
def driverStackSize (cfg : Config) (T : SideTable) (d : Routine) :
    Option SizeExpr :=
  (driverAggregate T d).map fun agg =>
    if cfg.crayPtrLocRhs then agg
    else .ediv agg (.sizeofTy (.real cfg.realKind))

/-- Modelled from the spec: a parallel-loop directive with its parsed
keyword parameters (clause name mapped to its variable list). -/
structure Pragma where
  keyword : String
  construct : String
  clauses : List (String × List String)
  deriving DecidableEq, Repr

/-- The variable list of a named clause (empty when absent). -/
def Pragma.getClause (p : Pragma) (n : String) : List String :=
  (alookup p.clauses n).getD []

/-- Modelled from the spec: the Directive Synchronizer's update of one
clause: the stack cursor variables are appended to the `private` list,
filtered out of the `firstprivate` list, and any other clause is left
unmodified. -/
def syncClause (sv : List String) (kv : String × List String) :
    String × List String :=
  if kv.1 = "private" then (kv.1, kv.2 ++ sv)
  else if kv.1 = "firstprivate" then
    (kv.1, kv.2.filter fun v => !sv.contains v)
  else kv

/-- Modelled from the spec: the Directive Synchronizer's update of one
parallel-loop directive: the stack cursor variables are added to the
`private` data-sharing clause (created if absent) and removed from any
`firstprivate` clause; all other clauses are left unmodified. -/
def syncPragma (sv : List String) (p : Pragma) : Pragma :=
  { p with clauses :=
      if (alookup p.clauses "private").isSome then
        p.clauses.map (syncClause sv)
      else p.clauses.map (syncClause sv) ++ [("private", sv)] }

/-- A size expression is scope-free when every symbol occurring in it is
bound to no routine or call-site scope. -/
def ScopeFree (e : SizeExpr) : Prop :=
  ∀ v ∈ e.freeVars, v.scope = none

/-- Number of overflow guards in a body. -/
def countGuards (body : List Stmt) : Nat :=
  body.countP fun s => s.isGuard

/-- Freshness of a temporary's name with respect to the names the Frame
Builder injects (the working cursor and incoming formals, the generated
Cray-pointer names) and to the symbols of the routine's size
expressions.  Source routines satisfy this. -/
@[reducible] def FreshTemp (cfg : Config) (r : Routine) (t : LocalDecl) : Prop :=
  t.name ≠ "ylstack_l" ∧ t.name ≠ "ylstack_u" ∧
  t.name ≠ "ydstack_l" ∧ t.name ≠ "ydstack_u" ∧
  ∀ t' ∈ eligibleTemps r,
    t.name ≠ "ip_" ++ t'.name ∧ (tempSize cfg t').mentions t.name = false

/-- Fixture: the bounds-checked, byte-accounting configuration of the
tests (`check_bounds=True`, `cray_ptr_loc_rhs=False`, no horizontal). -/
def cfgB : Config := ⟨true, false, none, "jprb"⟩

/-- Fixture: the nested-test callee `kernel2(start, end, columns, levels,
field2)` declaring the temporary `tmp1(columns, levels)`. -/
def kernel2R : Routine :=
  ⟨"kernel2", ["start", "end", "columns", "levels", "field2"],
    [⟨"tmp1", .real "jwrb",
      [.var ⟨"columns", some "kernel2"⟩, .var ⟨"levels", some "kernel2"⟩],
      false, false⟩],
    [.compute ["tmp1", "field2"]]⟩

/-- Fixture: the side-table after `kernel2R` has been processed. -/
def T1 : SideTable := (transformRoutine cfgB [] kernel2R).table

/-- Fixture: `kernel(start, end, klon, klev, field1)` declaring the
temporary `tmp1(klon)` and making a nested call to `kernel2`. -/
def kernelR : Routine :=
  ⟨"kernel", ["start", "end", "klon", "klev", "field1"],
    [⟨"tmp1", .real "jwrb", [.var ⟨"klon", some "kernel"⟩], false, false⟩],
    [.compute ["tmp1", "field1"],
     .call ⟨"kernel2", ["start", "end", "klon", "klev", "field1"], []⟩]⟩

/-- Fixture: a purely positional call, as the driver of the sequence test
makes it. -/
def posCall : Call := ⟨"kernel2", ["1", "nlon", "nlon", "nz", "field2"], []⟩

/-- Fixture: the published frame of the first sibling kernel of the
kernel-sequence test. -/
def frameA : Frame :=
  ⟨["start", "end", "klon", "klev"],
    .mul (.sizeofTy (.real "jprb")) (.var ⟨"klon", none⟩)⟩

/-- Fixture: the published frame of the second sibling kernel. -/
def frameB : Frame :=
  ⟨["start", "end", "klon", "klev"],
    .mul (.sizeofTy (.real "jprb"))
      (.mul (.var ⟨"klon", none⟩) (.var ⟨"klev", none⟩))⟩

/-- Fixture: the published frames of two sibling kernels with different
requirements, as in the kernel-sequence test. -/
def seqT : SideTable := [("kernelA", frameA), ("kernelB", frameB)]

/-- Fixture: the driver's first sibling call. -/
def callA : Call := ⟨"kernelA", ["1", "nlon", "nlon", "nz", "field1"], []⟩

/-- Fixture: the driver's second sibling call. -/
def callB : Call := ⟨"kernelB", ["1", "nlon", "nlon", "nz", "field2"], []⟩

/-- Fixture: a driver whose block loop makes two sibling calls at the
same scope. -/
def driverR : Routine :=
  ⟨"driver", ["nlon", "nz", "nb", "field1", "field2"], [],
    [.call callA, .call callB]⟩

/-- Fixture: the routine of `test_pool_allocator_more_call_checks` - a
derived-type local `p(klon)` next to an eligible temporary, and a call to
`optional_arg`. -/
def derivedR : Routine :=
  ⟨"kernel", ["start", "end", "klon", "field1"],
    [⟨"temp1", .real "jprb", [.var ⟨"klon", some "kernel"⟩], false, false⟩,
     ⟨"p", .derived "point", [.var ⟨"klon", some "kernel"⟩], false, false⟩],
    [.call ⟨"optional_arg", ["klon", "temp1", "temp2"], []⟩,
     .compute ["p", "field1"]]⟩

/-- Fixture: a side-table already holding a frame for `optional_arg`. -/
def optArgT : SideTable :=
  [("optional_arg", ⟨["klon", "temp1", "temp2"], .lit 0⟩)]

/-- Fixture: the first driver-loop directive of the sequence test,
`parallel default(shared) private(b) firstprivate(a)`. -/
def pragma0 : Pragma :=
  ⟨"omp", "parallel",
    [("default", ["shared"]), ("private", ["b"]), ("firstprivate", ["a"])]⟩

end Loki

namespace Loki.Build

/-- Python's `str.lower()` on the character data of a string. -/
def strToLower (s : String) : String :=
  ⟨s.data.map Char.toLower⟩

/-- Index of the last occurrence of a character in a character list. -/
def lastIdxOf (c : Char) : List Char → Option Nat
  | [] => none
  | x :: xs =>
    match lastIdxOf c xs with
    | some i => some (i + 1)
    | none => if x = c then some 0 else none

/-- The final path component, as `pathlib.Path(...).name` yields it. -/
def pathName (p : String) : String :=
  match lastIdxOf '/' p.data with
  | some i => String.mk (p.data.drop (i + 1))
  | none => p

/-- `pathlib.Path(...).stem`: the final component without its last
suffix; a leading or trailing dot does not start a suffix. -/
def pathStem (p : String) : String :=
  let name := pathName p
  let cs := name.toList
  match lastIdxOf '.' cs with
  | some i => if 0 < i ∧ i + 1 < cs.length then String.mk (cs.take i) else name
  | none => name

/-- `pathlib.Path(...).suffix`: the final component's last extension,
empty when there is none. -/
def pathSuffix (p : String) : String :=
  let name := pathName p
  let cs := name.toList
  match lastIdxOf '.' cs with
  | some i => if 0 < i ∧ i + 1 < cs.length then String.mk (cs.drop i) else ""
  | none => ""

/-- An `Obj` instance as `Obj.__new_stage2_` creates it: the (lowered)
name attribute, plus an identity tag distinguishing distinct Python
instances. -/
structure Obj where
  name : String
  objId : Nat
  deriving DecidableEq, Repr

/-- The state of the `cached_func`-backed instance cache behind
`Obj.__xnew_cached_`: the memo table keyed by the lowered name, and a
counter supplying fresh instance identities. -/
structure ObjCache where
  entries : List (String × Obj)
  nextId : Nat
  deriving DecidableEq, Repr

/-- Cache well-formedness: every memoised instance's name attribute is
the key it is stored under (which `Obj.__new__` establishes). -/
def ObjCache.wf (c : ObjCache) : Bool :=
  c.entries.all fun kv => kv.2.name = kv.1

/-- The name `Obj.__new__` derives: the provided name if truthy,
otherwise the stem of the provided source path
(`name = name or Path(kwargs.get('source_path')).stem`); `none` when
neither is usable (Python raises there). -/
def derivedName (name? sourcePath? : Option String) : Option String :=
  match name? with
  | some n => if n = "" then sourcePath?.map pathStem else some n
  | none => sourcePath?.map pathStem

/-- `Obj.__new__`: lower-case the derived name and return the instance
memoised under that name, creating and memoising a fresh instance on a
cache miss (`Obj.__xnew_cached_(cls, name)` with
`__new_stage2_` setting `obj.name = name`). -/
def Obj.new (c : ObjCache) (name? sourcePath? : Option String) :
    Option (Obj × ObjCache) :=
  (derivedName name? sourcePath?).map fun n0 =>
    let key := strToLower n0
    match alookup c.entries key with
    | some o => (o, c)
    | none =>
      let o : Obj := ⟨key, c.nextId⟩
      (o, ⟨(key, o) :: c.entries, c.nextId + 1⟩)

/-- `Obj.MODEMAP`: source suffix to compile mode. -/
def MODEMAP : List (String × String) :=
  [(".f90", "f90"), (".f", "f"), (".c", "c"), (".cc", "c"), (".cpp", "cpp"),
    (".CC", "cpp"), (".cxx", "cpp")]

/-- The externally visible effects `Obj.build` can perform: a direct
compiler invocation (`execute(args)`) or a work-queue submission
(`workqueue.execute(args, ...)`). -/
inductive BuildAction
  | execute (mode : String)
  | enqueue (mode : String)
  deriving DecidableEq, Repr

/-- The failure modes of `Obj.build` visible in the embedding: the
`RuntimeError` for a missing source file and the `KeyError` of the
`MODEMAP` lookup for an unrecognised suffix. -/
inductive BuildErr
  | noSource
  | unknownSuffix
  deriving DecidableEq, Repr

/-- The filesystem facts `Obj.build` consults: the established source
path, existence and modification times of the source file and of the
target object file `(build_dir/name).o`. -/
structure BuildEnv where
  sourcePath? : Option String
  sourceExists : Bool
  sourceMtime : Nat
  targetExists : Bool
  targetMtime : Nat
  deriving DecidableEq, Repr

/-- `Obj.build`: raise without a source path; resolve the compile mode
from the source suffix; then, unless `force` is set, skip (returning with
no action) when both files exist and the target is strictly newer than
the source; otherwise compile, through the work queue when one is given. -/
def Obj.build (env : BuildEnv) (force useWorkqueue : Bool) :
    Except BuildErr (List BuildAction) :=
  match env.sourcePath? with
  | none => .error .noSource
  | some sp =>
    match alookup MODEMAP (strToLower (pathSuffix sp)) with
    | none => .error .unknownSuffix
    | some mode =>
      let tTime : Option Nat :=
        if env.targetExists then some env.targetMtime else none
      let sTime : Option Nat :=
        if env.sourceExists then some env.sourceMtime else none
      match force, tTime, sTime with
      | false, some t, some s =>
        if s < t then .ok []
        else .ok [if useWorkqueue then .enqueue mode else .execute mode]
      | _, _, _ =>
        .ok [if useWorkqueue then .enqueue mode else .execute mode]

/-- Fixture: the empty instance cache (after `Obj.clear_cache`). -/
def emptyCache : ObjCache := ⟨[], 0⟩

/-- Fixture: a Fortran source object whose target object file exists and
is strictly newer than its source file. -/
def envUpToDate : BuildEnv := ⟨some "kernel.F90", true, 10, true, 20⟩

end Loki.Build

namespace Loki

lemma alookup_mem {α : Type} {l : List (String × α)} {key : String} {v : α}
    (h : alookup l key = some v) : (key, v) ∈ l := by
  induction l with
  | nil => simp [alookup] at h
  | cons kv rest ih =>
    rcases kv with ⟨k, w⟩
    by_cases hk : k = key
    · subst hk
      simp [alookup] at h
      subst h
      exact List.mem_cons_self _ _
    · simp [alookup, hk] at h
      exact List.mem_cons_of_mem _ (ih h)

lemma transform_already (cfg : Config) (T : SideTable) (r : Routine)
    (h : alreadyTransformed r = true) :
    transformRoutine cfg T r = ⟨r, T, []⟩ := by
  simp [transformRoutine, h]

lemma transform_fresh (cfg : Config) (T : SideTable) (r : Routine)
    (h : alreadyTransformed r = false) :
    transformRoutine cfg T r =
      ⟨{ r with
          params := r.params ++ stackParams cfg,
          body := entryCopy cfg ++ allocAll cfg r.name (eligibleTemps r) ++
            r.body.map (threadStmt cfg T) },
        (r.name, ⟨r.params, stackSizeOf cfg T r⟩) :: T,
        if r.hasDerived then
          ["Derived-type vars in Subroutine:: " ++ r.name ++
            " not supported in pool allocator"]
        else []⟩ := by
  simp [transformRoutine, h]

lemma already_after (cfg : Config) (T : SideTable) (r : Routine)
    (h : alreadyTransformed r = false) :
    alreadyTransformed (transformRoutine cfg T r).routine = true := by
  rw [transform_fresh cfg T r h]
  simp [alreadyTransformed, stackParams]

/-- Claim C7: running the pass a second time on an already-transformed
routine changes nothing - the stack parameters are not appended again,
the body (call sites and temporaries) is not re-instrumented and no new
side-table entry is published, because the pass detects the
already-present stack parameters and skips re-instrumentation. -/
theorem pool_pass_idempotent (cfg : Config) (T : SideTable) (r : Routine) :
    transformRoutine cfg (transformRoutine cfg T r).table
        (transformRoutine cfg T r).routine =
      ⟨(transformRoutine cfg T r).routine, (transformRoutine cfg T r).table,
        []⟩ := by
  by_cases h : alreadyTransformed r = true
  · rw [transform_already cfg T r h]
    exact transform_already cfg T r h
  · have h' : alreadyTransformed r = false := by simpa using h
    exact transform_already cfg _ _ (already_after cfg T r h')

/-- Claim C1, counterexample: for the nested-call fixture, the published
`stack_size` of `kernel` is not the declaration-ordered sum of its own
eligible temporaries' sizes - the substituted requirement of its callee
`kernel2` is included as well. -/
theorem stack_size_own_only_counterexample :
    ((alookup (transformRoutine cfgB T1 kernelR).table "kernel").map
        Frame.stackSize) ≠
      some (sumExprs ((eligibleTemps kernelR).map (tempSize cfgB))) := by
  decide

/-- Claim C1 (amended): the published `stack_size` of a transformed
routine is the sum, in source declaration order, over its eligible local
temporaries of `element_size(type, kind)` times the product of the
temporary's symbolic extents - plus, when the routine calls transformed
callees, the maximum of their substituted published requirements. -/
theorem published_stack_size_formula (cfg : Config) (T : SideTable)
    (r : Routine) (hnt : alreadyTransformed r = false)
    (hnd : r.hasDerived = false) :
    alookup (transformRoutine cfg T r).table r.name =
      some (Frame.mk r.params
        (match maxExprs (calleeContribs T r.body) with
        | none =>
          sumExprs ((r.locals.filter eligibleDecl).map fun d =>
            (d.dims.map SizeExpr.stripScope).foldl SizeExpr.mul
              (elemSize d.ty (!dimsUseHorizontal cfg.horizontal d.dims)))
        | some m =>
          SizeExpr.add
            (sumExprs ((r.locals.filter eligibleDecl).map fun d =>
              (d.dims.map SizeExpr.stripScope).foldl SizeExpr.mul
                (elemSize d.ty (!dimsUseHorizontal cfg.horizontal d.dims))))
            m)) := by
  rw [transform_fresh cfg T r hnt]
  simp only [alookup, if_pos rfl]
  cases hm : maxExprs (calleeContribs T r.body) <;>
    simp [stackSizeOf, eligibleTemps, hnd, tempSize, hm] <;> rfl

/-- Witness for `published_stack_size_formula` at the nested-call
fixture. -/
theorem published_stack_size_formula_witness :
    alookup (transformRoutine cfgB T1 kernelR).table kernelR.name =
      some (Frame.mk kernelR.params
        (match maxExprs (calleeContribs T1 kernelR.body) with
        | none =>
          sumExprs ((kernelR.locals.filter eligibleDecl).map fun d =>
            (d.dims.map SizeExpr.stripScope).foldl SizeExpr.mul
              (elemSize d.ty (!dimsUseHorizontal cfgB.horizontal d.dims)))
        | some m =>
          SizeExpr.add
            (sumExprs ((kernelR.locals.filter eligibleDecl).map fun d =>
              (d.dims.map SizeExpr.stripScope).foldl SizeExpr.mul
                (elemSize d.ty (!dimsUseHorizontal cfgB.horizontal d.dims))))
            m)) :=
  published_stack_size_formula cfgB T1 kernelR (by decide) (by decide)

/-- Claim C3, counterexample: a call that used only positional arguments
has the stack arguments appended by keyword, not positionally - the
positional argument list is left unchanged and the keyword list becomes
nonempty. -/
theorem positional_call_append_counterexample :
    posCall.kwargs = [] ∧
    (threadCall cfgB T1 posCall).args = posCall.args ∧
    (threadCall cfgB T1 posCall).kwargs ≠ [] := by
  decide

/-- Claim C3 (amended): every rewritten call site of a transformed callee
keeps its original positional and keyword arguments unchanged and has the
stack arguments appended by keyword, using the callee's declared
parameter names, regardless of the original call's argument-passing
style; optional or absent actual arguments therefore never shift the
position or name used for the appended arguments. -/
theorem call_rewrite_appends_keywords (cfg : Config) (T : SideTable)
    (c : Call) (h : (alookup T c.callee).isSome = true) :
    (threadCall cfg T c).args = c.args ∧
    (threadCall cfg T c).kwargs = c.kwargs ++ stackKwargs cfg := by
  constructor <;> simp [threadCall, h]

/-- Witness for `call_rewrite_appends_keywords` at the purely positional
fixture call. -/
theorem call_rewrite_appends_keywords_witness :
    (threadCall cfgB T1 posCall).args = posCall.args ∧
    (threadCall cfgB T1 posCall).kwargs = posCall.kwargs ++ stackKwargs cfgB :=
  call_rewrite_appends_keywords cfgB T1 posCall (by decide)

/-- Claim C4, counterexample: a routine containing a derived-type local
variable is not left unmodified - the warning is recorded, but the stack
parameters are appended to its signature and the call site inside it is
rewritten with the stack keyword arguments. -/
theorem derived_type_routine_modified_counterexample :
    (transformRoutine cfgB optArgT derivedR).warnings ≠ [] ∧
    (transformRoutine cfgB optArgT derivedR).routine.params =
      derivedR.params ++ ["ydstack_l", "ydstack_u"] ∧
    callsOf (transformRoutine cfgB optArgT derivedR).routine.body =
      [⟨"optional_arg", ["klon", "temp1", "temp2"],
        [("YDSTACK_L", "ylstack_l"), ("YDSTACK_U", "ylstack_u")]⟩] := by
  decide

/-- Claim C4 (amended): a derived-type local variable anywhere in the
routine makes the pass record a warning and abort the relocation of the
routine's temporaries (no temporary is selected and no allocation
sequence is emitted), but the stack parameters are still appended to the
signature, the call sites inside the routine are still rewritten, and a
frame is still published, so the routine still participates in stack
threading. -/
theorem derived_type_skip_behaviour (cfg : Config) (T : SideTable)
    (r : Routine) (hnt : alreadyTransformed r = false)
    (hd : r.hasDerived = true) :
    (transformRoutine cfg T r).warnings =
      ["Derived-type vars in Subroutine:: " ++ r.name ++
        " not supported in pool allocator"] ∧
    eligibleTemps r = [] ∧
    (transformRoutine cfg T r).routine.body =
      entryCopy cfg ++ r.body.map (threadStmt cfg T) ∧
    (transformRoutine cfg T r).routine.params = r.params ++ stackParams cfg ∧
    alookup (transformRoutine cfg T r).table r.name =
      some ⟨r.params, stackSizeOf cfg T r⟩ := by
  rw [transform_fresh cfg T r hnt]
  refine ⟨by simp [hd], by simp [eligibleTemps, hd], ?_, by simp, ?_⟩
  · simp [eligibleTemps, hd, allocAll]
  · simp [alookup]

/-- Witness for `derived_type_skip_behaviour` at the
`test_pool_allocator_more_call_checks` fixture. -/
theorem derived_type_skip_behaviour_witness :
    (transformRoutine cfgB optArgT derivedR).warnings =
      ["Derived-type vars in Subroutine:: " ++ derivedR.name ++
        " not supported in pool allocator"] ∧
    eligibleTemps derivedR = [] ∧
    (transformRoutine cfgB optArgT derivedR).routine.body =
      entryCopy cfgB ++ derivedR.body.map (threadStmt cfgB optArgT) ∧
    (transformRoutine cfgB optArgT derivedR).routine.params =
      derivedR.params ++ stackParams cfgB ∧
    alookup (transformRoutine cfgB optArgT derivedR).table derivedR.name =
      some ⟨derivedR.params, stackSizeOf cfgB optArgT derivedR⟩ :=
  derived_type_skip_behaviour cfgB optArgT derivedR (by decide) (by decide)


/-- Claim C2: for a driver whose block loop makes two sibling calls at
the same scope to transformed kernels with published requirements, the
Root Provisioner sizes the single driver buffer as the maximum of the two
substituted requirements (converted to a reference-kind element count in
byte-accounting mode), and not as their sum. -/
theorem driver_buffer_sized_by_max (cfg : Config) (T : SideTable)
    (d : Routine) (c1 c2 : Call) (f1 f2 : Frame)
    (hc : callsOf d.body = [c1, c2])
    (h1 : alookup T c1.callee = some f1)
    (h2 : alookup T c2.callee = some f2) :
    driverStackSize cfg T d =
      some (if cfg.crayPtrLocRhs then
          SizeExpr.emax (substSize c1 f1) (substSize c2 f2)
        else
          SizeExpr.ediv (SizeExpr.emax (substSize c1 f1) (substSize c2 f2))
            (SizeExpr.sizeofTy (DType.real cfg.realKind))) ∧
    driverStackSize cfg T d ≠
      some (if cfg.crayPtrLocRhs then
          SizeExpr.add (substSize c1 f1) (substSize c2 f2)
        else
          SizeExpr.ediv (SizeExpr.add (substSize c1 f1) (substSize c2 f2))
            (SizeExpr.sizeofTy (DType.real cfg.realKind))) := by
  have hagg : driverAggregate T d =
      some (SizeExpr.emax (substSize c1 f1) (substSize c2 f2)) := by
    simp [driverAggregate, calleeContribs, hc, calleeContrib, h1, h2, maxExprs]
  constructor
  · simp [driverStackSize, hagg]
  · simp only [driverStackSize, hagg, Option.map_some]
    cases cfg.crayPtrLocRhs <;> simp

/-- Witness for `driver_buffer_sized_by_max` at the sequence-test
fixture. -/
theorem driver_buffer_sized_by_max_witness :
    driverStackSize cfgB seqT driverR =
      some (if cfgB.crayPtrLocRhs then
          SizeExpr.emax (substSize callA frameA) (substSize callB frameB)
        else
          SizeExpr.ediv
            (SizeExpr.emax (substSize callA frameA) (substSize callB frameB))
            (SizeExpr.sizeofTy (DType.real cfgB.realKind))) ∧
    driverStackSize cfgB seqT driverR ≠
      some (if cfgB.crayPtrLocRhs then
          SizeExpr.add (substSize callA frameA) (substSize callB frameB)
        else
          SizeExpr.ediv
            (SizeExpr.add (substSize callA frameA) (substSize callB frameB))
            (SizeExpr.sizeofTy (DType.real cfgB.realKind))) :=
  driver_buffer_sized_by_max cfgB seqT driverR callA callB frameA frameB
    (by decide) (by decide) (by decide)

lemma scopeFree_rebind (σ : String → Option String) (e : SizeExpr) :
    ScopeFree (e.rebind σ) := by
  induction e with
  | var v =>
    intro u hu
    simp only [SizeExpr.rebind, SizeExpr.freeVars, List.mem_singleton] at hu
    subst hu
    rfl
  | lit n =>
    intro u hu
    simp [SizeExpr.rebind, SizeExpr.freeVars] at hu
  | add a b iha ihb =>
    intro u hu
    simp only [SizeExpr.rebind, SizeExpr.freeVars, List.mem_append] at hu
    rcases hu with h | h
    · exact iha u h
    · exact ihb u h
  | mul a b iha ihb =>
    intro u hu
    simp only [SizeExpr.rebind, SizeExpr.freeVars, List.mem_append] at hu
    rcases hu with h | h
    · exact iha u h
    · exact ihb u h
  | emax a b iha ihb =>
    intro u hu
    simp only [SizeExpr.rebind, SizeExpr.freeVars, List.mem_append] at hu
    rcases hu with h | h
    · exact iha u h
    · exact ihb u h
  | ediv a b iha ihb =>
    intro u hu
    simp only [SizeExpr.rebind, SizeExpr.freeVars, List.mem_append] at hu
    rcases hu with h | h
    · exact iha u h
    · exact ihb u h
  | sizeofTy t =>
    intro u hu
    simp [SizeExpr.rebind, SizeExpr.freeVars] at hu

lemma scopeFree_add {a b : SizeExpr} (ha : ScopeFree a) (hb : ScopeFree b) :
    ScopeFree (SizeExpr.add a b) := by
  intro u hu
  simp only [SizeExpr.freeVars, List.mem_append] at hu
  rcases hu with h | h
  · exact ha u h
  · exact hb u h

lemma scopeFree_mul {a b : SizeExpr} (ha : ScopeFree a) (hb : ScopeFree b) :
    ScopeFree (SizeExpr.mul a b) := by
  intro u hu
  simp only [SizeExpr.freeVars, List.mem_append] at hu
  rcases hu with h | h
  · exact ha u h
  · exact hb u h

lemma scopeFree_emax {a b : SizeExpr} (ha : ScopeFree a) (hb : ScopeFree b) :
    ScopeFree (SizeExpr.emax a b) := by
  intro u hu
  simp only [SizeExpr.freeVars, List.mem_append] at hu
  rcases hu with h | h
  · exact ha u h
  · exact hb u h

lemma scopeFree_foldl {op : SizeExpr → SizeExpr → SizeExpr}
    (hop : ∀ a b, ScopeFree a → ScopeFree b → ScopeFree (op a b))
    (l : List SizeExpr) (init : SizeExpr) (h0 : ScopeFree init)
    (hl : ∀ e ∈ l, ScopeFree e) : ScopeFree (l.foldl op init) := by
  induction l generalizing init with
  | nil => exact h0
  | cons e es ih =>
    exact ih _ (hop _ _ h0 (hl e (List.mem_cons_self _ _)))
      fun x hx => hl x (List.mem_cons_of_mem _ hx)

lemma scopeFree_elemSize (t : DType) (c : Bool) : ScopeFree (elemSize t c) := by
  intro u hu
  cases c <;> simp [elemSize, SizeExpr.freeVars] at hu

lemma scopeFree_tempSize (cfg : Config) (d : LocalDecl) :
    ScopeFree (tempSize cfg d) := by
  refine scopeFree_foldl (fun a b ha hb => scopeFree_mul ha hb) _ _
    (scopeFree_elemSize _ _) ?_
  intro e he
  simp only [List.mem_map] at he
  obtain ⟨d0, _, rfl⟩ := he
  exact scopeFree_rebind _ d0

lemma scopeFree_sumExprs (l : List SizeExpr) (hl : ∀ e ∈ l, ScopeFree e) :
    ScopeFree (sumExprs l) := by
  cases l with
  | nil =>
    intro u hu
    simp [sumExprs, SizeExpr.freeVars] at hu
  | cons e es =>
    exact scopeFree_foldl (fun a b ha hb => scopeFree_add ha hb) es e
      (hl e (List.mem_cons_self _ _)) fun x hx => hl x (List.mem_cons_of_mem _ hx)

lemma scopeFree_maxExprs {l : List SizeExpr} {m : SizeExpr}
    (h : maxExprs l = some m) (hl : ∀ e ∈ l, ScopeFree e) : ScopeFree m := by
  cases l with
  | nil => simp [maxExprs] at h
  | cons e es =>
    simp only [maxExprs, Option.some_inj] at h
    subst h
    exact scopeFree_foldl (fun a b ha hb => scopeFree_emax ha hb) es e
      (hl e (List.mem_cons_self _ _)) fun x hx => hl x (List.mem_cons_of_mem _ hx)

lemma scopeFree_calleeContribs (T : SideTable) (body : List Stmt) :
    ∀ e ∈ calleeContribs T body, ScopeFree e := by
  intro e he
  simp only [calleeContribs, List.mem_filterMap] at he
  obtain ⟨c, _, hc⟩ := he
  unfold calleeContrib at hc
  cases hl : alookup T c.callee with
  | none => rw [hl] at hc; simp at hc
  | some f =>
    rw [hl] at hc
    simp only [Option.map_some', Option.some_inj] at hc
    subst hc
    exact scopeFree_rebind _ _

lemma stackSizeOf_eq (cfg : Config) (T : SideTable) (r : Routine) :
    stackSizeOf cfg T r =
      match maxExprs (calleeContribs T r.body) with
      | none => sumExprs ((eligibleTemps r).map (tempSize cfg))
      | some m =>
        .add (sumExprs ((eligibleTemps r).map (tempSize cfg))) m := rfl

lemma scopeFree_stackSizeOf (cfg : Config) (T : SideTable) (r : Routine) :
    ScopeFree (stackSizeOf cfg T r) := by
  have hown : ScopeFree (sumExprs ((eligibleTemps r).map (tempSize cfg))) := by
    apply scopeFree_sumExprs
    intro e he
    simp only [List.mem_map] at he
    obtain ⟨d, _, rfl⟩ := he
    exact scopeFree_tempSize cfg d
  rw [stackSizeOf_eq]
  cases hm : maxExprs (calleeContribs T r.body) with
  | none => exact hown
  | some m =>
    exact scopeFree_add hown (scopeFree_maxExprs hm (scopeFree_calleeContribs T r.body))

/-- Claim C6: every free variable of a published per-routine stack-size
expression is scope-free (bound to no routine or call-site scope), so the
expression can be re-emitted in a different routine's context after
substituting actual arguments for formal dimension names. -/
theorem published_stack_size_scope_free (cfg : Config) (T : SideTable)
    (r : Routine) (f : Frame) (hnt : alreadyTransformed r = false)
    (hf : alookup (transformRoutine cfg T r).table r.name = some f) :
    ∀ v ∈ f.stackSize.freeVars, v.scope = none := by
  rw [transform_fresh cfg T r hnt] at hf
  have hf' : Frame.mk r.params (stackSizeOf cfg T r) = f := by
    have : alookup ((r.name, Frame.mk r.params (stackSizeOf cfg T r)) :: T)
        r.name = some ⟨r.params, stackSizeOf cfg T r⟩ := by
      simp [alookup]
    rw [this] at hf
    exact Option.some_inj.mp hf
  subst hf'
  exact scopeFree_stackSizeOf cfg T r

/-- Witness for `published_stack_size_scope_free` at the nested-call
fixture. -/
theorem published_stack_size_scope_free_witness :
    (Frame.mk kernelR.params
        (stackSizeOf cfgB T1 kernelR)).stackSize.freeVars.all
      (fun v => v.scope = none) = true :=
  List.all_eq_true.mpr fun v hv =>
    decide_eq_true
      (published_stack_size_scope_free cfgB T1 kernelR
        ⟨kernelR.params, stackSizeOf cfgB T1 kernelR⟩ (by decide) (by decide)
        v hv)


lemma countGuards_append (a b : List Stmt) :
    countGuards (a ++ b) = countGuards a + countGuards b :=
  List.countP_append _ _ _

lemma countGuards_cons (s : Stmt) (l : List Stmt) :
    countGuards (s :: l) = countGuards l + if s.isGuard then 1 else 0 :=
  List.countP_cons _ _ _

lemma countGuards_entryCopy (cfg : Config) : countGuards (entryCopy cfg) = 0 := by
  cases h : cfg.checkBounds <;>
    simp [entryCopy, h, countGuards, Stmt.isGuard]

lemma countGuards_allocBlock (cfg : Config) (rname : String) (t : LocalDecl) :
    countGuards (allocBlock cfg rname t) = if cfg.checkBounds then 1 else 0 := by
  cases h : cfg.checkBounds <;>
    simp [allocBlock, h, countGuards, Stmt.isGuard]

lemma countGuards_allocAll (cfg : Config) (rname : String)
    (ts : List LocalDecl) :
    countGuards (allocAll cfg rname ts) =
      if cfg.checkBounds then ts.length else 0 := by
  induction ts with
  | nil => cases cfg.checkBounds <;> simp [allocAll, countGuards]
  | cons t ts ih =>
    simp only [allocAll]
    rw [countGuards_append, countGuards_allocBlock, ih]
    cases cfg.checkBounds <;> simp [Nat.add_comm]

lemma isGuard_threadStmt (cfg : Config) (T : SideTable) (s : Stmt) :
    (threadStmt cfg T s).isGuard = s.isGuard := by
  cases s <;> simp [threadStmt, Stmt.isGuard]

lemma countGuards_threaded (cfg : Config) (T : SideTable) (body : List Stmt)
    (h : ∀ s ∈ body, s.isGuard = false) :
    countGuards (body.map (threadStmt cfg T)) = 0 := by
  induction body with
  | nil => rfl
  | cons s ss ih =>
    rw [List.map_cons, countGuards_cons, isGuard_threadStmt,
      h s (List.mem_cons_self _ _), ih fun x hx => h x (List.mem_cons_of_mem _ hx)]
    rfl

lemma allocAll_append (cfg : Config) (rname : String) (a b : List LocalDecl) :
    allocAll cfg rname (a ++ b) =
      allocAll cfg rname a ++ allocAll cfg rname b := by
  induction a with
  | nil => simp [allocAll]
  | cons t ts ih => simp [allocAll, ih]

lemma mentions_var (v : SymVar) (n : String) :
    (SizeExpr.var v).mentions n = decide (v.name = n) := by
  simp [SizeExpr.mentions, SizeExpr.freeVars]

lemma mentions_add (a b : SizeExpr) (n : String) :
    (SizeExpr.add a b).mentions n = (a.mentions n || b.mentions n) := by
  simp [SizeExpr.mentions, SizeExpr.freeVars]

lemma not_uses_entryCopy (cfg : Config) (n : String)
    (h1 : n ≠ "ylstack_l") (h2 : n ≠ "ylstack_u")
    (h3 : n ≠ "ydstack_l") (h4 : n ≠ "ydstack_u") :
    ∀ s ∈ entryCopy cfg, s.usesVar n = false := by
  intro s hs
  cases hb : cfg.checkBounds <;> rw [entryCopy, hb] at hs <;> simp at hs
  · subst hs
    simp [Stmt.usesVar, mentions_var, Ne.symm h1, Ne.symm h3]
  · rcases hs with hs | hs <;> subst hs
    · simp [Stmt.usesVar, mentions_var, Ne.symm h1, Ne.symm h3]
    · simp [Stmt.usesVar, mentions_var, Ne.symm h2, Ne.symm h4]

lemma not_uses_allocBlock (cfg : Config) (rname n : String) (t : LocalDecl)
    (h1 : n ≠ "ylstack_l") (h2 : n ≠ "ylstack_u")
    (hip : n ≠ "ip_" ++ t.name)
    (hm : (tempSize cfg t).mentions n = false) :
    ∀ s ∈ allocBlock cfg rname t, s.usesVar n = false := by
  intro s hs
  cases hb : cfg.checkBounds <;> rw [allocBlock, hb] at hs <;> simp at hs
  · rcases hs with hs | hs <;> subst hs
    · simp [Stmt.usesVar, mentions_var, Ne.symm hip, Ne.symm h1]
    · simp [Stmt.usesVar, mentions_add, mentions_var, hm, Ne.symm h1]
  · rcases hs with hs | hs | hs <;> subst hs
    · simp [Stmt.usesVar, mentions_var, Ne.symm hip, Ne.symm h1]
    · simp [Stmt.usesVar, mentions_add, mentions_var, hm, Ne.symm h1]
    · simp [Stmt.usesVar, h1, h2]

lemma not_uses_allocAll (cfg : Config) (rname n : String)
    (ts : List LocalDecl)
    (h1 : n ≠ "ylstack_l") (h2 : n ≠ "ylstack_u")
    (hts : ∀ t ∈ ts, n ≠ "ip_" ++ t.name ∧
      (tempSize cfg t).mentions n = false) :
    ∀ s ∈ allocAll cfg rname ts, s.usesVar n = false := by
  induction ts with
  | nil =>
    intro s hs
    simp [allocAll] at hs
  | cons t ts ih =>
    intro s hs
    simp only [allocAll, List.mem_append] at hs
    rcases hs with hs | hs
    · exact not_uses_allocBlock cfg rname n t h1 h2
        (hts t (List.mem_cons_self _ _)).1 (hts t (List.mem_cons_self _ _)).2 s hs
    · exact ih (fun x hx => hts x (List.mem_cons_of_mem _ hx)) s hs

/-- Claim C5: with bounds-checking enabled, the rewritten body of a
routine with N eligible temporaries contains exactly N overflow guards,
and for each temporary the body decomposes as
`P ++ [address assignment] ++ Q ++ [guard] ++ Rest` where no statement up
to and including the guard references the temporary - so the guard sits
strictly after that temporary's address assignment and strictly before
its first use; with bounds-checking disabled the rewritten body contains
no guard (the guard is the only program-terminating statement form the
pass emits). -/
theorem overflow_guard_placement (cfg : Config) (T : SideTable) (r : Routine)
    (hnt : alreadyTransformed r = false)
    (hng : ∀ s ∈ r.body, s.isGuard = false)
    (hfresh : ∀ t ∈ eligibleTemps r, FreshTemp cfg r t) :
    (cfg.checkBounds = true →
      countGuards (transformRoutine cfg T r).routine.body =
        (eligibleTemps r).length ∧
      ∀ t ∈ eligibleTemps r, ∃ P Q Rest : List Stmt,
        (transformRoutine cfg T r).routine.body =
          P ++ Stmt.assign ("ip_" ++ t.name)
              (SizeExpr.var ⟨"ylstack_l", none⟩) ::
            (Q ++ Stmt.guard r.name t.name :: Rest) ∧
        (∀ s ∈ P, s.usesVar t.name = false) ∧
        Stmt.usesVar t.name (Stmt.assign ("ip_" ++ t.name)
          (SizeExpr.var ⟨"ylstack_l", none⟩)) = false ∧
        (∀ s ∈ Q, s.usesVar t.name = false) ∧
        Stmt.usesVar t.name (Stmt.guard r.name t.name) = false) ∧
    (cfg.checkBounds = false →
      countGuards (transformRoutine cfg T r).routine.body = 0) := by
  have hbody : (transformRoutine cfg T r).routine.body =
      entryCopy cfg ++ allocAll cfg r.name (eligibleTemps r) ++
        r.body.map (threadStmt cfg T) := by
    rw [transform_fresh cfg T r hnt]
  constructor
  · intro hcb
    constructor
    · rw [hbody, countGuards_append, countGuards_append, countGuards_entryCopy,
        countGuards_allocAll, countGuards_threaded cfg T r.body hng, hcb]
      simp
    · intro t ht
      obtain ⟨hf1, hf2, hf3, hf4, hf5⟩ := hfresh t ht
      obtain ⟨ts1, ts2, hts⟩ := List.append_of_mem ht
      refine ⟨entryCopy cfg ++ allocAll cfg r.name ts1,
        [Stmt.assign "ylstack_l" (SizeExpr.add (SizeExpr.var ⟨"ylstack_l", none⟩)
          (tempSize cfg t))],
        allocAll cfg r.name ts2 ++ r.body.map (threadStmt cfg T),
        ?_, ?_, ?_, ?_, ?_⟩
      · rw [hbody, hts, allocAll_append]
        simp only [allocAll, allocBlock, hcb, if_true, List.append_assoc,
          List.cons_append, List.nil_append, List.append_nil]
      · intro s hs
        rcases List.mem_append.mp hs with hs | hs
        · exact not_uses_entryCopy cfg t.name hf1 hf2 hf3 hf4 s hs
        · refine not_uses_allocAll cfg r.name t.name ts1 hf1 hf2 ?_ s hs
          intro x hx
          exact hf5 x (by rw [hts]; exact List.mem_append_left _ hx)
      · simp [Stmt.usesVar, mentions_var, Ne.symm (hf5 t ht).1, Ne.symm hf1]
      · intro s hs
        rw [List.mem_singleton] at hs
        subst hs
        simp [Stmt.usesVar, mentions_add, mentions_var, (hf5 t ht).2,
          Ne.symm hf1]
      · simp [Stmt.usesVar, hf1, hf2]
  · intro hcb
    rw [hbody, countGuards_append, countGuards_append, countGuards_entryCopy,
      countGuards_allocAll, countGuards_threaded cfg T r.body hng, hcb]
    simp

/-- Witness for `overflow_guard_placement` at the nested-call fixture:
its one eligible temporary yields exactly one overflow guard. -/
theorem overflow_guard_placement_witness :
    countGuards (transformRoutine cfgB T1 kernelR).routine.body =
      (eligibleTemps kernelR).length :=
  ((overflow_guard_placement cfgB T1 kernelR (by decide) (by decide)
    (by decide)).1 rfl).1


lemma alookup_append_right {α : Type} (a b : List (String × α)) (key : String)
    (h : alookup a key = none) : alookup (a ++ b) key = alookup b key := by
  induction a with
  | nil => rfl
  | cons kv rest ih =>
    rcases kv with ⟨k, v⟩
    by_cases hk : k = key
    · subst hk
      simp [alookup] at h
    · simp only [List.cons_append, alookup, if_neg hk] at h ⊢
      exact ih h

lemma alookup_syncClause_none (sv : List String)
    (l : List (String × List String))
    (h : alookup l "private" = none) :
    alookup (l.map (syncClause sv)) "private" = none := by
  induction l with
  | nil => rfl
  | cons kv rest ih =>
    rcases kv with ⟨k, vs⟩
    by_cases hk : k = "private"
    · subst hk
      simp [alookup] at h
    · by_cases hk2 : k = "firstprivate"
      · subst hk2
        simp only [alookup, if_neg hk] at h
        have hsc : syncClause sv ("firstprivate", vs) =
            ("firstprivate", vs.filter fun v => !sv.contains v) := by
          simp [syncClause]
        rw [List.map_cons, hsc]
        simp [alookup, ih h]
      · simp only [alookup, if_neg hk] at h
        have hsc : syncClause sv (k, vs) = (k, vs) := by
          simp [syncClause, hk, hk2]
        rw [List.map_cons, hsc]
        simp [alookup, hk, ih h]

lemma alookup_syncClause_some (sv : List String)
    (l : List (String × List String)) (vs0 : List String)
    (h : alookup l "private" = some vs0) :
    alookup (l.map (syncClause sv)) "private" = some (vs0 ++ sv) := by
  induction l with
  | nil => simp [alookup] at h
  | cons kv rest ih =>
    rcases kv with ⟨k, vs⟩
    by_cases hk : k = "private"
    · subst hk
      simp [alookup] at h
      subst h
      simp [syncClause, alookup]
    · by_cases hk2 : k = "firstprivate"
      · subst hk2
        simp only [alookup, if_neg hk] at h
        have hsc : syncClause sv ("firstprivate", vs) =
            ("firstprivate", vs.filter fun v => !sv.contains v) := by
          simp [syncClause]
        rw [List.map_cons, hsc]
        simp [alookup, ih h]
      · simp only [alookup, if_neg hk] at h
        have hsc : syncClause sv (k, vs) = (k, vs) := by
          simp [syncClause, hk, hk2]
        rw [List.map_cons, hsc]
        simp [alookup, hk, ih h]

/-- Claim C8: after the Directive Synchronizer runs on a parallel-loop
directive, every stack cursor variable appears in the directive's private
data-sharing clause (the clause is created if absent) and appears in no
firstprivate clause of that directive. -/
theorem directive_sync_private (sv : List String) (p : Pragma) (v : String)
    (hv : v ∈ sv) :
    v ∈ (syncPragma sv p).getClause "private" ∧
    ∀ kv ∈ (syncPragma sv p).clauses, kv.1 = "firstprivate" → v ∉ kv.2 := by
  constructor
  · rw [Pragma.getClause]
    cases hl : alookup p.clauses "private" with
    | some vs0 =>
      have hcl : (syncPragma sv p).clauses = p.clauses.map (syncClause sv) := by
        simp [syncPragma, hl]
      rw [hcl, alookup_syncClause_some sv p.clauses vs0 hl]
      simp [hv]
    | none =>
      have hcl : (syncPragma sv p).clauses =
          p.clauses.map (syncClause sv) ++ [("private", sv)] := by
        simp [syncPragma, hl]
      rw [hcl, alookup_append_right _ _ _ (alookup_syncClause_none sv p.clauses hl)]
      simpa [alookup] using hv
  · intro kv hkv hfp
    have hkv' : kv ∈ p.clauses.map (syncClause sv) ∨ kv = ("private", sv) := by
      by_cases hl : (alookup p.clauses "private").isSome
      · left
        simpa [syncPragma, hl] using hkv
      · have hmem : kv ∈ p.clauses.map (syncClause sv) ++ [("private", sv)] := by
          simpa [syncPragma, hl] using hkv
        rcases List.mem_append.mp hmem with hmem | hmem
        · exact Or.inl hmem
        · exact Or.inr (by simpa using hmem)
    rcases hkv' with hkv' | hkv'
    · obtain ⟨kv0, hkv0, heq⟩ := List.mem_map.mp hkv'
      rcases kv0 with ⟨k0, vs0⟩
      by_cases h0 : k0 = "private"
      · subst h0
        rw [← heq] at hfp
        simp [syncClause] at hfp
      · by_cases h02 : k0 = "firstprivate"
        · subst h02
          rw [← heq]
          simp only [syncClause, if_neg h0, if_pos rfl, reduceIte]
          intro hvmem
          have := (List.mem_filter.mp hvmem).2
          simp [hv] at this
        · rw [← heq] at hfp
          simp [syncClause, h0, h02] at hfp
    · subst hkv'
      simp at hfp

/-- Witness for `directive_sync_private` at the sequence-test driver
pragma `parallel default(shared) private(b) firstprivate(a)`. -/
theorem directive_sync_private_witness :
    "ylstack_l" ∈
      (syncPragma ["ylstack_l", "ylstack_u"] pragma0).getClause "private" ∧
    ∀ kv ∈ (syncPragma ["ylstack_l", "ylstack_u"] pragma0).clauses,
      kv.1 = "firstprivate" → "ylstack_l" ∉ kv.2 :=
  directive_sync_private ["ylstack_l", "ylstack_u"] pragma0 "ylstack_l"
    (by decide)

end Loki

namespace Loki.Build

lemma objCache_wf_entries {c : ObjCache} (hwf : c.wf = true) :
    ∀ kv ∈ c.entries, kv.2.name = kv.1 := by
  unfold ObjCache.wf at hwf
  rw [List.all_eq_true] at hwf
  intro kv hkv
  exact of_decide_eq_true (hwf kv hkv)

/-- Claim C9: `Obj` construction is cached by case-insensitive name - two
constructions whose provided or source-path-derived names agree up to
letter case yield the identical instance, and the returned instance's
name attribute is the lower-cased derived name. -/
theorem obj_cache_case_insensitive (c : ObjCache)
    (n1 s1 n2 s2 : Option String) (d1 d2 : String) (o1 o2 : Obj)
    (c1 c2 : ObjCache) (hwf : c.wf = true)
    (hd1 : derivedName n1 s1 = some d1)
    (hd2 : derivedName n2 s2 = some d2)
    (hcase : strToLower d1 = strToLower d2)
    (h1 : Obj.new c n1 s1 = some (o1, c1))
    (h2 : Obj.new c1 n2 s2 = some (o2, c2)) :
    o2 = o1 ∧ o1.name = strToLower d1 ∧ o2.name = strToLower d2 := by
  unfold Obj.new at h1 h2
  rw [hd1] at h1
  rw [hd2] at h2
  simp only [Option.map_some', Option.some_inj] at h1 h2
  cases hl : alookup c.entries (strToLower d1) with
  | some o =>
    rw [hl] at h1
    simp only [Prod.mk.injEq] at h1
    obtain ⟨ho1, hc1⟩ := h1
    have hname : o.name = strToLower d1 := by
      simpa using objCache_wf_entries hwf _ (alookup_mem hl)
    rw [← hc1, ← hcase, hl] at h2
    simp only [Prod.mk.injEq] at h2
    obtain ⟨ho2, hc2⟩ := h2
    refine ⟨?_, ?_, ?_⟩
    · rw [← ho1, ← ho2]
    · rw [← ho1]
      exact hname
    · rw [← hcase, ← ho2]
      exact hname
  | none =>
    rw [hl] at h1
    simp only [Prod.mk.injEq] at h1
    obtain ⟨ho1, hc1⟩ := h1
    rw [← hc1, ← hcase] at h2
    have hl2 : alookup ((strToLower d1, (⟨strToLower d1, c.nextId⟩ : Obj)) ::
        c.entries) (strToLower d1) = some ⟨strToLower d1, c.nextId⟩ := by
      simp [alookup]
    rw [hl2] at h2
    simp only [Prod.mk.injEq] at h2
    obtain ⟨ho2, hc2⟩ := h2
    refine ⟨?_, ?_, ?_⟩
    · rw [← ho1, ← ho2]
    · rw [← ho1]
    · rw [← hcase, ← ho2]

/-- Witness for `obj_cache_case_insensitive`: constructing
`Obj(name='Kernel_Mod')` and then `Obj(name='KERNEL_mod')` on the empty
cache returns the identical instance named `kernel_mod`. -/
theorem obj_cache_case_insensitive_witness :
    (Obj.mk "kernel_mod" 0) = Obj.mk "kernel_mod" 0 ∧
    (Obj.mk "kernel_mod" 0).name = strToLower "Kernel_Mod" ∧
    (Obj.mk "kernel_mod" 0).name = strToLower "KERNEL_mod" :=
  obj_cache_case_insensitive emptyCache (some "Kernel_Mod") none
    (some "KERNEL_mod") none "Kernel_Mod" "KERNEL_mod"
    ⟨"kernel_mod", 0⟩ ⟨"kernel_mod", 0⟩
    ⟨[("kernel_mod", ⟨"kernel_mod", 0⟩)], 1⟩
    ⟨[("kernel_mod", ⟨"kernel_mod", 0⟩)], 1⟩
    (by decide) (by decide) (by decide) (by decide) (by decide) (by decide)

/-- Claim C10: `Obj.build` with `force` unset, an existing source file
with a recognised suffix, and an existing target object file strictly
newer than the source returns without compiling - no compiler command is
executed and no work-queue task is enqueued. -/
theorem build_skips_up_to_date (env : BuildEnv) (wq : Bool) (sp m : String)
    (hsp : env.sourcePath? = some sp)
    (hm : alookup MODEMAP (strToLower (pathSuffix sp)) = some m)
    (hte : env.targetExists = true) (hse : env.sourceExists = true)
    (hnew : env.sourceMtime < env.targetMtime) :
    Obj.build env false wq = .ok [] := by
  unfold Obj.build
  rw [hsp]
  simp only [hm, hte, hse, if_true]
  simp [hnew]

/-- Witness for `build_skips_up_to_date` at the up-to-date Fortran
fixture. -/
theorem build_skips_up_to_date_witness :
    Obj.build envUpToDate false false = .ok [] :=
  build_skips_up_to_date envUpToDate false "kernel.F90" "f90" (by decide)
    (by decide) (by decide) (by decide) (by decide)

end Loki.Build
